import Mathlib

/-!
Shallow embedding of the ParityChecking repository (parity_checking.hpp /
parity_checking.cc): the ParityHdr data structure, its derivation from a byte
buffer, the wire codec (serialize / load_from_serialized), checksum and
equality, and the single-bit repair engine.

Byte buffers are modelled as functions `Nat → Nat` (values are bytes, i.e.
`< 256`, where it matters); serialized messages are `List Nat` of byte values.
Unsigned 32-bit accumulation is modelled with explicit `% 4294967296`; the
truncation of `unsigned char` assignments with explicit `% 256`.  Multi-byte
integer fields use little-endian byte order, consistently between encode and
decode (the C++ code memcpy's the in-memory representation on one fixed
platform, so any consistent convention is faithful).
-/

namespace ParityChecking

/-- XOR-accumulation of `f` over a list of indices (helper for closed forms). -/
def xorSum (l : List Nat) (f : Nat → Nat) : Nat :=
  l.foldl (fun s i => s ^^^ f i) 0

/-- The ParityHdr record: `check_sum` is an unsigned 32-bit value, `B` (rows)
and `N` (cols) are unsigned 16-bit values, and the two parity arrays are byte
sequences (owned arrays of length `B` resp. `N` in the C++ object). -/
structure ParityHdr where
  check_sum : Nat
  B : Nat
  N : Nat
  row_parities : List Nat
  col_parities : List Nat
deriving DecidableEq, Repr

/-- The default constructor `ParityHdr()`: all scalars 0, no parity data. -/
def defaultHdr : ParityHdr := ⟨0, 0, 0, [], []⟩

/-- `ParityHdr::byte_parity`: 8 iterations of `p ^= c & 1; c >>= 1`. -/
def byte_parity (c : Nat) : Nat :=
  ((List.range 8).foldl (fun st _ => (st.1 ^^^ (st.2 &&& 1), st.2 >>> 1)) (0, c)).1

/-- The loop body of `ParityHdr::calculate_parities`, folded over buffer
positions `i < L`: XOR byte `i` into row cell `i % B` and its bit-parity into
column cell `i / B`.  The two arrays are modelled as update functions. -/
def parityFold (B : Nat) (a : Nat → Nat) (L : Nat) : (Nat → Nat) × (Nat → Nat) :=
  (List.range L).foldl
    (fun rc i =>
      (fun r => if r = i % B then rc.1 r ^^^ a i else rc.1 r,
       fun c => if c = i / B then rc.2 c ^^^ byte_parity (a i) else rc.2 c))
    (fun _ => 0, fun _ => 0)

/-- `ParityHdr::calculate_parities`: single pass over the `L = B * N` bytes. -/
def calculate_parities (B N : Nat) (a : Nat → Nat) : (Nat → Nat) × (Nat → Nat) :=
  parityFold B a (B * N)

/-- `ParityHdr::calc_check_sum`: `B + N` plus all row and column parity bytes,
accumulated in an `unsigned int` (mod 2^32). -/
def calc_check_sum (h : ParityHdr) : Nat :=
  let s1 := (List.range h.B).foldl (fun s i => (s + h.row_parities.getD i 0) % 4294967296)
    ((h.B + h.N) % 4294967296)
  (List.range h.N).foldl (fun s j => (s + h.col_parities.getD j 0) % 4294967296) s1

/-- `ParityHdr::confirm_check_sum`. -/
def confirm_check_sum (h : ParityHdr) : Bool :=
  h.check_sum == calc_check_sum h

/-- The constructor `ParityHdr(B, N, byte_array)`: fill both parity arrays via
`calculate_parities`, then set `check_sum = calc_check_sum()`. -/
def mkParityHdr (B N : Nat) (a : Nat → Nat) : ParityHdr :=
  let rc := calculate_parities B N a
  let h0 : ParityHdr :=
    { check_sum := 0, B := B, N := N,
      row_parities := (List.range B).map rc.1,
      col_parities := (List.range N).map rc.2 }
  { h0 with check_sum := calc_check_sum h0 }

/-- Little-endian bytes of a 16-bit field. -/
def le16 (x : Nat) : List Nat := [x % 256, x / 256 % 256]

/-- Little-endian bytes of a 32-bit field. -/
def le32 (x : Nat) : List Nat :=
  [x % 256, x / 256 % 256, x / 65536 % 256, x / 16777216 % 256]

/-- The 8-byte critical info block `(check_sum, B, N)` that `serialize` copies
from the object representation (offsets 0..7: 4-byte `check_sum`, 2-byte `B`,
2-byte `N`, no padding). -/
def prefixBytes (h : ParityHdr) : List Nat := le32 h.check_sum ++ le16 h.B ++ le16 h.N

/-- The `sum_row_parities` accumulator computed inside `serialize` (unsigned
int accumulation over the `B` row-parity bytes). -/
def sum_row_parities (h : ParityHdr) : Nat :=
  (List.range h.B).foldl (fun s b => (s + h.row_parities.getD b 0) % 4294967296) 0

/-- `ParityHdr::serialize`: critical info twice (offsets 0 and 8), the row
parity sum (offset 16), then the `B` row-parity bytes (offset 20) and the `N`
column-parity bytes (offset `20 + B`).  Total length `20 + B + N`. -/
def serialize (h : ParityHdr) : List Nat :=
  prefixBytes h ++ prefixBytes h ++ le32 (sum_row_parities h) ++
    (List.range h.B).map (fun b => h.row_parities.getD b 0) ++
    (List.range h.N).map (fun c => h.col_parities.getD c 0)

/-- Read a 16-bit little-endian field of a received byte sequence. -/
def rd16 (s : List Nat) (off : Nat) : Nat := s.getD off 0 + 256 * s.getD (off + 1) 0

/-- Read a 32-bit little-endian field of a received byte sequence. -/
def rd32 (s : List Nat) (off : Nat) : Nat :=
  s.getD off 0 + 256 * s.getD (off + 1) 0 + 65536 * s.getD (off + 2) 0 +
    16777216 * s.getD (off + 3) 0

/-- `ParityHdr::load_from_serialized`, returning the C++ `bool` result paired
with the state of `*this` after the call: (1) memcmp the two 8-byte copies of
the critical info; (2) memcpy `check_sum`, `B`, `N` from the first copy;
(3) fail if `B + N > check_sum`; (4) recompute the row-parity sum from the
payload and compare with the transmitted field; (5) replace both parity
arrays from the payload; (6) return `confirm_check_sum()`. -/
def load_from_serialized (h : ParityHdr) (ser : List Nat) : Bool × ParityHdr :=
  if (List.range 8).any (fun k => ser.getD k 0 != ser.getD (8 + k) 0) then (false, h)
  else
    let h1 : ParityHdr := { h with check_sum := rd32 ser 0, B := rd16 ser 4, N := rd16 ser 6 }
    if h1.B + h1.N > h1.check_sum then (false, h1)
    else if ((List.range h1.B).foldl (fun s b => (s + ser.getD (20 + b) 0) % 4294967296) 0
        != rd32 ser 16) then (false, h1)
    else
      let h2 : ParityHdr :=
        { h1 with
          row_parities := (List.range h1.B).map (fun b => ser.getD (20 + b) 0),
          col_parities := (List.range h1.N).map (fun c => ser.getD (20 + h1.B + c) 0) }
      (confirm_check_sum h2, h2)

/-- `operator==`: scalars first, then memcmp of the `B` row-parity bytes and
the `N` column-parity bytes. -/
def hdrEq (lhs rhs : ParityHdr) : Bool :=
  if lhs.check_sum != rhs.check_sum || lhs.B != rhs.B || lhs.N != rhs.N then false
  else if (List.range lhs.B).any
      (fun i => lhs.row_parities.getD i 0 != rhs.row_parities.getD i 0) then false
  else if (List.range lhs.N).any
      (fun j => lhs.col_parities.getD j 0 != rhs.col_parities.getD j 0) then false
  else true

/-- Reason of the `std::runtime_error` thrown by `repair_byte_array` on a bad
trusted checksum. -/
def msgBadCheckSum : String := "BadCheckSum() in repair_byte_array"

/-- Reason of the `std::runtime_error` thrown on a dimension mismatch. -/
def msgDimMismatch : String := "ParityHdr DimensionMismatch in repair_byte_array."

/-- `PC_Exception` reason: no column with a parity mismatch. -/
def msgNoCol : String := "In find_error_locations, Couldn\x27t locate a col with a parity mismatch.\n"

/-- `PC_Exception` reason: more than one column with a parity mismatch. -/
def msgManyCol : String := "In find_error_locations, More than 1 col had a parity mismatch.\n"

/-- `PC_Exception` reason: no row with a parity mismatch. -/
def msgNoRow : String := "In find_error_locations, Couldn\x27t locate a row with a parity mismatch.\n"

/-- `PC_Exception` reason: more than one row with a parity mismatch. -/
def msgManyRow : String := "In find_error_locations, More than 1 row had a parity mismatch.\n"

/-- `PC_Exception` reason: more than one bad bit in the bad byte. -/
def msgManyBit : String := "In find_error_locations, More than 1 bad bit found in the bad byte.\n"

/-- The mismatch-scanning loops of `find_error_locations`: count indices where
the two parity arrays differ, remembering the last such index (the C++ `int`
out-parameters start at `-1`, hence the `Int` component). -/
def scan_mismatch (n : Nat) (f g : List Nat) : Nat × Int :=
  (List.range n).foldl
    (fun st idx => if f.getD idx 0 != g.getD idx 0 then (st.1 + 1, (idx : Int)) else st)
    (0, -1)

/-- The bit-scanning loop of `find_error_locations`: 8 iterations of testing
`0x80 & flips` then `flips <<= 1` on an `unsigned char`; returns the last bit
position found (MSB-first, `-1` if none) and the count of set bits. -/
def bit_scan (flips0 : Nat) : Int × Nat :=
  let st := (List.range 8).foldl
    (fun (st : Int × Nat × Nat) b =>
      if st.2.2 &&& 128 != 0 then ((b : Int), st.2.1 + 1, (st.2.2 <<< 1) % 256)
      else (st.1, st.2.1, (st.2.2 <<< 1) % 256))
    (-1, 0, flips0 % 256)
  (st.1, st.2.1)

/-- `find_error_locations`: locate the unique mismatching column, the unique
mismatching row-parity byte, and the unique flipped bit inside it; on success
return `(8 * row + bit, col)`, otherwise the `PC_Exception` reason. -/
def find_error_locations (rcvd_hdr t_hdr : ParityHdr) : Except String (Nat × Nat) :=
  let cs := scan_mismatch rcvd_hdr.N rcvd_hdr.col_parities t_hdr.col_parities
  if cs.1 == 0 then .error msgNoCol
  else if cs.1 > 1 then .error msgManyCol
  else
    let rs := scan_mismatch rcvd_hdr.B rcvd_hdr.row_parities t_hdr.row_parities
    if rs.1 == 0 then .error msgNoRow
    else if rs.1 > 1 then .error msgManyRow
    else
      let i0 := rs.2.toNat
      let flips := (rcvd_hdr.row_parities.getD i0 0 ^^^ t_hdr.row_parities.getD i0 0) % 256
      let fc := bit_scan flips
      if fc.2 != 1 then .error msgManyBit
      else .ok (8 * i0 + fc.1.toNat, cs.2.toNat)

/-- `repair_byte_array`, returning the thrown reason (if any) paired with the
state of the buffer `t` after the call: check the trusted checksum, return
unchanged if the headers are equal, check dimensions, locate the error, and
flip bit `i % 8` (MSB-first) of byte `j * B + i / 8`. -/
def repair_byte_array (rcvd_hdr t_hdr : ParityHdr) (t : Nat → Nat) :
    Except String Unit × (Nat → Nat) :=
  if !confirm_check_sum rcvd_hdr then (.error msgBadCheckSum, t)
  else if hdrEq rcvd_hdr t_hdr then (.ok (), t)
  else if rcvd_hdr.B != t_hdr.B || rcvd_hdr.N != t_hdr.N then (.error msgDimMismatch, t)
  else
    match find_error_locations rcvd_hdr t_hdr with
    | .error e => (.error e, t)
    | .ok ij =>
      (.ok (), fun x =>
        if x = ij.2 * rcvd_hdr.B + ij.1 / 8 then t x ^^^ (128 >>> (ij.1 % 8)) else t x)

/-- Flip bit `k` (MSB-first, mask `0x80 >> k`) of buffer byte `p`. -/
def flipBit (t : Nat → Nat) (p k : Nat) : Nat → Nat :=
  fun x => if x = p then t x ^^^ (128 >>> k) else t x

/-- Flip bit `k` (mask `1 << k`) of byte `d` of a serialized message. -/
def flipSerByte (s : List Nat) (d k : Nat) : List Nat :=
  s.set d (s.getD d 0 ^^^ (1 <<< k))

/-- Plain (unbounded) additive accumulation of `f` over a list of indices. -/
def sumTerms (l : List Nat) (f : Nat → Nat) : Nat := l.foldl (fun s i => s + f i) 0

/-- A handcrafted serialized message whose duplicated prefix, dimension bound
and row-parity sum all check out, but whose claimed checksum (100) is not the
checksum of the carried data (which is 1 + 1 + 5 + 1 = 8): the final
`confirm_check_sum` fails only after the parity arrays were replaced. -/
def serC5 : List Nat :=
  le32 100 ++ le16 1 ++ le16 1 ++ le32 100 ++ le16 1 ++ le16 1 ++ le32 5 ++ [5] ++ [1]

/-- A handcrafted serialized message that passes every check of
`load_from_serialized` (checksum 5 = 1 + 1 + 0 + 3) while carrying the
column-parity byte 3, a value outside {0, 1}. -/
def serC9 : List Nat :=
  le32 5 ++ le16 1 ++ le16 1 ++ le32 5 ++ le16 1 ++ le16 1 ++ le32 0 ++ [0] ++ [3]

/-! ### Helper lemmas: XOR accumulation -/

lemma xor_left_comm (a b c : Nat) : a ^^^ (b ^^^ c) = b ^^^ (a ^^^ c) := by
  rw [← Nat.xor_assoc, Nat.xor_comm a b, Nat.xor_assoc]

lemma foldl_xor_eq (f : Nat → Nat) (l : List Nat) (s : Nat) :
    l.foldl (fun t i => t ^^^ f i) s = s ^^^ xorSum l f := by
  induction l generalizing s with
  | nil => simp [xorSum]
  | cons a l ih =>
    simp only [xorSum, List.foldl_cons] at *
    rw [ih, ih (0 ^^^ f a), Nat.zero_xor, Nat.xor_assoc]

lemma xorSum_cons (f : Nat → Nat) (a : Nat) (l : List Nat) :
    xorSum (a :: l) f = f a ^^^ xorSum l f := by
  simp only [xorSum, List.foldl_cons]
  rw [foldl_xor_eq, Nat.zero_xor]
  rfl

lemma xorSum_append (f : Nat → Nat) (l l' : List Nat) :
    xorSum (l ++ l') f = xorSum l f ^^^ xorSum l' f := by
  simp only [xorSum, List.foldl_append]
  rw [foldl_xor_eq]
  rfl

lemma xorSum_congr {f g : Nat → Nat} {l : List Nat} (h : ∀ i ∈ l, f i = g i) :
    xorSum l f = xorSum l g := by
  induction l with
  | nil => rfl
  | cons a l ih =>
    rw [xorSum_cons, xorSum_cons, h a (List.mem_cons_self a l),
      ih (fun i hi => h i (List.mem_cons_of_mem a hi))]

lemma xorSum_update {f g : Nat → Nat} {l : List Nat} {p m : Nat} (hnd : l.Nodup)
    (hp : p ∈ l) (hfp : f p = g p ^^^ m) (hof : ∀ i ∈ l, i ≠ p → f i = g i) :
    xorSum l f = xorSum l g ^^^ m := by
  induction l with
  | nil => cases hp
  | cons a l ih =>
    rw [xorSum_cons, xorSum_cons]
    rcases List.mem_cons.mp hp with rfl | hpl
    · have hnotin : p ∉ l := (List.nodup_cons.mp hnd).1
      have : xorSum l f = xorSum l g := by
        refine xorSum_congr fun i hi => hof i (List.mem_cons_of_mem p hi) ?_
        rintro rfl; exact hnotin hi
      rw [hfp, this, Nat.xor_assoc, Nat.xor_assoc, Nat.xor_comm m (xorSum l g)]
    · have hap : a ≠ p := by rintro rfl; exact (List.nodup_cons.mp hnd).1 hpl
      rw [hof a (List.mem_cons_self a l) hap,
        ih (List.nodup_cons.mp hnd).2 hpl (fun i hi hip => hof i (List.mem_cons_of_mem a hi) hip),
        Nat.xor_assoc]

lemma xorSum_lt_two_pow {f : Nat → Nat} {l : List Nat} {w : Nat}
    (h : ∀ i ∈ l, f i < 2 ^ w) : xorSum l f < 2 ^ w := by
  induction l with
  | nil => exact Nat.pos_pow_of_pos w (by norm_num)
  | cons a l ih =>
    rw [xorSum_cons]
    exact Nat.xor_lt_two_pow (h a (List.mem_cons_self a l))
      (ih fun i hi => h i (List.mem_cons_of_mem a hi))

lemma xor_le_one {a b : Nat} (ha : a ≤ 1) (hb : b ≤ 1) : a ^^^ b ≤ 1 := by
  interval_cases a <;> interval_cases b <;> decide

lemma xorSum_le_one {f : Nat → Nat} {l : List Nat} (h : ∀ i ∈ l, f i ≤ 1) :
    xorSum l f ≤ 1 := by
  induction l with
  | nil => exact Nat.zero_le 1
  | cons a l ih =>
    rw [xorSum_cons]
    exact xor_le_one (h a (List.mem_cons_self a l))
      (ih fun i hi => h i (List.mem_cons_of_mem a hi))

/-! ### Helper lemmas: byte_parity -/

lemma byte_parity_aux (n : Nat) : ∀ (c s : Nat),
    ((List.range n).foldl (fun st _ => (st.1 ^^^ (st.2 &&& 1), st.2 >>> 1)) (s, c)).1 =
      (List.range n).foldl (fun t i => t ^^^ ((c >>> i) &&& 1)) s := by
  induction n with
  | zero => intro c s; rfl
  | succ n ih =>
    intro c s
    rw [List.range_succ_eq_map]
    simp only [List.foldl_cons, List.foldl_map]
    rw [ih (c >>> 1) (s ^^^ (c &&& 1))]
    have harg : ∀ i : Nat, (c >>> 1) >>> i = c >>> (i + 1) := by
      intro i; rw [Nat.add_comm i 1, Nat.shiftRight_add]
    have : (fun (t : Nat) (i : Nat) => t ^^^ (((c >>> 1) >>> i) &&& 1)) =
        (fun (t : Nat) (i : Nat) => t ^^^ ((c >>> (i + 1)) &&& 1)) := by
      funext t i; rw [harg]
    rw [this]
    simp only [Nat.succ_eq_add_one, Nat.shiftRight_zero]

lemma byte_parity_eq_bits (c : Nat) :
    byte_parity c = xorSum (List.range 8) (fun i => (c >>> i) &&& 1) := by
  rw [byte_parity, byte_parity_aux, xorSum]

lemma shiftRight_and_one (y i : Nat) : (y >>> i) &&& 1 = (y.testBit i).toNat := by
  rw [Nat.and_one_is_mod, Nat.shiftRight_eq_div_pow, Nat.testBit_to_div_mod]
  rcases Nat.mod_two_eq_zero_or_one (y / 2 ^ i) with h | h <;> simp [h]

lemma bit_of_xor (x m i : Nat) :
    ((x ^^^ m) >>> i) &&& 1 = ((x >>> i) &&& 1) ^^^ ((m >>> i) &&& 1) := by
  rw [shiftRight_and_one, shiftRight_and_one, shiftRight_and_one, Nat.testBit_xor]
  cases x.testBit i <;> cases m.testBit i <;> rfl

lemma xorSum_pointwise {f g : Nat → Nat} (l : List Nat) :
    xorSum l (fun i => f i ^^^ g i) = xorSum l f ^^^ xorSum l g := by
  induction l with
  | nil => simp [xorSum]
  | cons a l ih =>
    rw [xorSum_cons, xorSum_cons, xorSum_cons, ih]
    rw [Nat.xor_assoc, Nat.xor_assoc, xor_left_comm (g a)]

lemma byte_parity_xor (x m : Nat) :
    byte_parity (x ^^^ m) = byte_parity x ^^^ byte_parity m := by
  rw [byte_parity_eq_bits, byte_parity_eq_bits, byte_parity_eq_bits, ← xorSum_pointwise]
  exact xorSum_congr fun i _ => bit_of_xor x m i

lemma byte_parity_mask {k : Nat} (hk : k < 8) : byte_parity (128 >>> k) = 1 := by
  interval_cases k <;> rfl

lemma byte_parity_le_one (c : Nat) : byte_parity c ≤ 1 := by
  rw [byte_parity_eq_bits]
  refine xorSum_le_one fun i _ => ?_
  rw [Nat.and_one_is_mod]
  omega

/-! ### Helper lemmas: closed forms of the parity derivation -/

lemma parityFold_fst (B : Nat) (a : Nat → Nat) (L : Nat) (r : Nat) :
    (parityFold B a L).1 r = xorSum ((List.range L).filter (fun i => i % B == r)) a := by
  induction L with
  | zero => simp [parityFold, xorSum]
  | succ L ih =>
    rw [parityFold, List.range_succ, List.foldl_append, List.filter_append]
    rw [show (List.range L).foldl _ _ = parityFold B a L from rfl]
    simp only [List.foldl_cons, List.foldl_nil, List.filter_cons, List.filter_nil]
    rw [xorSum_append]
    by_cases hr : r = L % B
    · subst hr
      rw [if_pos rfl, ih, if_pos (beq_self_eq_true (L % B)), xorSum_cons]
      simp [xorSum]
    · have hb : ¬((L % B == r) = true) := by
        simp only [beq_iff_eq]
        exact fun h => hr h.symm
      rw [if_neg hr, ih, if_neg hb]
      simp [xorSum]

lemma parityFold_snd (B : Nat) (a : Nat → Nat) (L : Nat) (c : Nat) :
    (parityFold B a L).2 c =
      xorSum ((List.range L).filter (fun i => i / B == c)) (fun i => byte_parity (a i)) := by
  induction L with
  | zero => simp [parityFold, xorSum]
  | succ L ih =>
    rw [parityFold, List.range_succ, List.foldl_append, List.filter_append]
    rw [show (List.range L).foldl _ _ = parityFold B a L from rfl]
    simp only [List.foldl_cons, List.foldl_nil, List.filter_cons, List.filter_nil]
    rw [xorSum_append]
    by_cases hc : c = L / B
    · subst hc
      rw [if_pos rfl, ih, if_pos (beq_self_eq_true (L / B)), xorSum_cons]
      simp [xorSum]
    · have hb : ¬((L / B == c) = true) := by
        simp only [beq_iff_eq]
        exact fun h => hc h.symm
      rw [if_neg hc, ih, if_neg hb]
      simp [xorSum]

/-! ### Helper lemmas: list access -/

lemma getD_map_range {f : Nat → Nat} {n r : Nat} (h : r < n) :
    ((List.range n).map f).getD r 0 = f r := by
  rw [List.getD_eq_getElem?_getD, List.getElem?_map, List.getElem?_range h]
  rfl

lemma getD_append_lt (l l' : List Nat) (n : Nat) (h : n < l.length) :
    (l ++ l').getD n 0 = l.getD n 0 := by
  rw [List.getD_eq_getElem?_getD, List.getD_eq_getElem?_getD, List.getElem?_append_left h]

lemma getD_append_ge (l l' : List Nat) (n : Nat) (h : l.length ≤ n) :
    (l ++ l').getD n 0 = l'.getD (n - l.length) 0 := by
  rw [List.getD_eq_getElem?_getD, List.getD_eq_getElem?_getD, List.getElem?_append_right h]

lemma getD_set_self (s : List Nat) (d v : Nat) (hd : d < s.length) :
    (s.set d v).getD d 0 = v := by
  rw [List.getD_eq_getElem?_getD, List.getElem?_set_self hd]
  rfl

lemma getD_set_other (s : List Nat) (d m v : Nat) (hne : d ≠ m) :
    (s.set d v).getD m 0 = s.getD m 0 := by
  rw [List.getD_eq_getElem?_getD, List.getD_eq_getElem?_getD, List.getElem?_set_ne hne]

/-! ### Helper lemmas: fields of a derived header -/

lemma mkParityHdr_B (B N : Nat) (a : Nat → Nat) : (mkParityHdr B N a).B = B := rfl

lemma mkParityHdr_N (B N : Nat) (a : Nat → Nat) : (mkParityHdr B N a).N = N := rfl

lemma mkParityHdr_row (B N : Nat) (a : Nat → Nat) :
    (mkParityHdr B N a).row_parities = (List.range B).map (calculate_parities B N a).1 := rfl

lemma mkParityHdr_col (B N : Nat) (a : Nat → Nat) :
    (mkParityHdr B N a).col_parities = (List.range N).map (calculate_parities B N a).2 := rfl

lemma calc_check_sum_ignores_check_sum (h : ParityHdr) (c : Nat) :
    calc_check_sum { h with check_sum := c } = calc_check_sum h := rfl

lemma mkParityHdr_confirm (B N : Nat) (a : Nat → Nat) :
    confirm_check_sum (mkParityHdr B N a) = true := by
  rw [confirm_check_sum]
  exact beq_self_eq_true _

lemma hdrEq_refl (h : ParityHdr) : hdrEq h h = true := by
  simp [hdrEq]

lemma hdrEq_row_of_true {l r : ParityHdr} (h : hdrEq l r = true) {i : Nat} (hi : i < l.B) :
    l.row_parities.getD i 0 = r.row_parities.getD i 0 := by
  rw [hdrEq] at h
  by_cases h1 : (l.check_sum != r.check_sum || l.B != r.B || l.N != r.N) = true
  · rw [if_pos h1] at h; cases h
  · rw [if_neg h1] at h
    by_cases h2 : ((List.range l.B).any
        fun i => l.row_parities.getD i 0 != r.row_parities.getD i 0) = true
    · rw [if_pos h2] at h; cases h
    · rw [Bool.not_eq_true, List.any_eq_false] at h2
      simpa using h2 i (List.mem_range.mpr hi)

/-! ### Helper lemmas: mismatch scanning -/

lemma scan_skip (f g : List Nat) (l : List Nat) (st : Nat × Int)
    (h : ∀ i ∈ l, f.getD i 0 = g.getD i 0) :
    l.foldl (fun st idx => if f.getD idx 0 != g.getD idx 0 then (st.1 + 1, (idx : Int)) else st)
      st = st := by
  induction l generalizing st with
  | nil => rfl
  | cons a l ih =>
    simp only [List.foldl_cons]
    have hc : (f.getD a 0 != g.getD a 0) = false := by
      rw [h a (List.mem_cons_self a l)]
      exact bne_self_eq_false _
    rw [if_neg (by rw [hc]; exact Bool.false_ne_true)]
    exact ih st fun i hi => h i (List.mem_cons_of_mem a hi)

lemma scan_mismatch_unique {n : Nat} {f g : List Nat} {m : Nat} (hm : m < n)
    (hne : f.getD m 0 ≠ g.getD m 0) (heq : ∀ c, c < n → c ≠ m → f.getD c 0 = g.getD c 0) :
    scan_mismatch n f g = (1, (m : Int)) := by
  rw [scan_mismatch]
  have hsplit : n = (m + 1) + (n - (m + 1)) := by omega
  rw [hsplit, List.range_add, List.foldl_append, List.range_succ, List.foldl_append]
  rw [scan_skip f g (List.range m) _ fun i hi => by
    have him := List.mem_range.mp hi
    exact heq i (by omega) (by omega)]
  simp only [List.foldl_cons, List.foldl_nil]
  rw [if_pos (by simpa using hne)]
  exact scan_skip f g _ _ fun i hi => by
    rcases List.mem_map.mp hi with ⟨j, hj, rfl⟩
    have hjr := List.mem_range.mp hj
    exact heq (m + 1 + j) (by omega) (by omega)

/-! ### Helper lemmas: additive accumulation -/

lemma foldl_add_eq (f : Nat → Nat) (l : List Nat) (s : Nat) :
    l.foldl (fun t i => t + f i) s = s + sumTerms l f := by
  induction l generalizing s with
  | nil => simp [sumTerms]
  | cons a l ih =>
    rw [List.foldl_cons, ih (s + f a)]
    have hc : sumTerms (a :: l) f = f a + sumTerms l f := by
      rw [sumTerms, List.foldl_cons, ih (0 + f a)]
      omega
    rw [hc]
    omega

lemma sumTerms_cons (f : Nat → Nat) (a : Nat) (l : List Nat) :
    sumTerms (a :: l) f = f a + sumTerms l f := by
  rw [sumTerms, List.foldl_cons, foldl_add_eq]
  omega

lemma foldl_addmod (f : Nat → Nat) (M : Nat) (l : List Nat) (a : Nat) :
    l.foldl (fun s i => (s + f i) % M) (a % M) = (a + sumTerms l f) % M := by
  induction l generalizing a with
  | nil => simp [sumTerms]
  | cons x l ih =>
    simp only [List.foldl_cons]
    rw [Nat.mod_add_mod, ih (a + f x), sumTerms_cons, Nat.add_assoc]

lemma sumTerms_le (f : Nat → Nat) (l : List Nat) (c : Nat) (h : ∀ i ∈ l, f i ≤ c) :
    sumTerms l f ≤ l.length * c := by
  induction l with
  | nil => simp [sumTerms]
  | cons a l ih =>
    rw [sumTerms_cons, List.length_cons]
    have := ih fun i hi => h i (List.mem_cons_of_mem a hi)
    have := h a (List.mem_cons_self a l)
    calc f a + sumTerms l f ≤ c + l.length * c := by omega
    _ = (l.length + 1) * c := by ring

lemma sumTerms_congr {f g : Nat → Nat} {l : List Nat} (h : ∀ i ∈ l, f i = g i) :
    sumTerms l f = sumTerms l g := by
  induction l with
  | nil => rfl
  | cons a l ih =>
    rw [sumTerms_cons, sumTerms_cons, h a (List.mem_cons_self a l),
      ih fun i hi => h i (List.mem_cons_of_mem a hi)]

lemma sumTerms_getD_range (l : List Nat) :
    sumTerms (List.range l.length) (fun i => l.getD i 0) = l.sum := by
  induction l with
  | nil => rfl
  | cons a l ih =>
    rw [List.length_cons, List.range_succ_eq_map]
    rw [sumTerms_cons]
    simp only [List.getD_cons_zero, List.sum_cons]
    congr 1
    have hmap : sumTerms (List.map Nat.succ (List.range l.length))
        (fun i => (a :: l).getD i 0) =
        sumTerms (List.range l.length) (fun i => (a :: l).getD (i + 1) 0) := by
      simp only [sumTerms, List.foldl_map, Nat.succ_eq_add_one]
    rw [hmap]
    rw [sumTerms_congr fun i _ => List.getD_cons_succ]
    exact ih

lemma calc_check_sum_eq (h : ParityHdr) (hB : h.row_parities.length = h.B)
    (hN : h.col_parities.length = h.N) :
    calc_check_sum h = (h.B + h.N + h.row_parities.sum + h.col_parities.sum) % 4294967296 := by
  rw [calc_check_sum]
  rw [foldl_addmod, foldl_addmod]
  rw [← hB, ← hN, sumTerms_getD_range, sumTerms_getD_range]

lemma sum_row_parities_eq (h : ParityHdr) (hB : h.row_parities.length = h.B) :
    sum_row_parities h = h.row_parities.sum % 4294967296 := by
  rw [sum_row_parities, show (0 : Nat) = 0 % 4294967296 from rfl, foldl_addmod, ← hB,
    sumTerms_getD_range]
  omega

/-! ### Helper lemmas: effect of a single bit flip on the derived parities -/

lemma flipBit_self (a : Nat → Nat) (p k : Nat) : flipBit a p k p = a p ^^^ (128 >>> k) := by
  simp [flipBit]

lemma flipBit_other (a : Nat → Nat) (p k : Nat) {x : Nat} (hne : x ≠ p) :
    flipBit a p k x = a x := by
  simp [flipBit, hne]

lemma flip_row_parities {B N : Nat} (a : Nat → Nat) {p : Nat} (k : Nat)
    (hp : p < B * N) (r : Nat) :
    (calculate_parities B N (flipBit a p k)).1 r =
      if r = p % B then (calculate_parities B N a).1 r ^^^ (128 >>> k)
      else (calculate_parities B N a).1 r := by
  rw [calculate_parities, calculate_parities, parityFold_fst, parityFold_fst]
  by_cases hr : r = p % B
  · rw [if_pos hr]
    refine xorSum_update ((List.nodup_range _).filter _) ?_ (flipBit_self a p k) ?_
    · rw [List.mem_filter]
      refine ⟨List.mem_range.mpr hp, ?_⟩
      rw [hr]
      exact beq_self_eq_true _
    · intro i _ hip
      exact flipBit_other a p k hip
  · rw [if_neg hr]
    refine xorSum_congr fun i hi => ?_
    have hir : i % B = r := by simpa using (List.mem_filter.mp hi).2
    refine flipBit_other a p k ?_
    rintro rfl
    exact hr hir.symm

lemma flip_col_parities {B N : Nat} (a : Nat → Nat) {p k : Nat}
    (hp : p < B * N) (hk : k < 8) (c : Nat) :
    (calculate_parities B N (flipBit a p k)).2 c =
      if c = p / B then (calculate_parities B N a).2 c ^^^ 1
      else (calculate_parities B N a).2 c := by
  rw [calculate_parities, calculate_parities, parityFold_snd, parityFold_snd]
  by_cases hc : c = p / B
  · rw [if_pos hc]
    refine xorSum_update (p := p) ((List.nodup_range _).filter _) ?_ ?_ ?_
    · rw [List.mem_filter]
      refine ⟨List.mem_range.mpr hp, ?_⟩
      rw [hc]
      exact beq_self_eq_true _
    · rw [flipBit_self, byte_parity_xor, byte_parity_mask hk]
    · intro i _ hip
      rw [flipBit_other a p k hip]
  · rw [if_neg hc]
    refine xorSum_congr fun i hi => ?_
    have hic : i / B = c := by simpa using (List.mem_filter.mp hi).2
    rw [flipBit_other a p k ?_]
    rintro rfl
    exact hc hic.symm

lemma bit_scan_mask {k : Nat} (hk : k < 8) : bit_scan (128 >>> k) = ((k : Int), 1) := by
  interval_cases k <;> decide

lemma ne_xor_one (x : Nat) : x ≠ x ^^^ 1 := by
  intro heq
  have h01 : x ^^^ 0 = x ^^^ 1 := by rw [Nat.xor_zero]; exact heq
  exact absurd (Nat.xor_right_inj.mp h01) (by decide)

lemma ne_xor_mask {x m : Nat} (hm : m ≠ 0) : x ≠ x ^^^ m := by
  intro heq
  have h0m : x ^^^ 0 = x ^^^ m := by rw [Nat.xor_zero]; exact heq
  exact hm (Nat.xor_right_inj.mp h0m).symm

lemma mk_row_getD {B N : Nat} (a : Nat → Nat) {r : Nat} (hr : r < B) :
    (mkParityHdr B N a).row_parities.getD r 0 = (calculate_parities B N a).1 r := by
  rw [mkParityHdr_row, getD_map_range hr]

lemma mk_col_getD {B N : Nat} (a : Nat → Nat) {c : Nat} (hc : c < N) :
    (mkParityHdr B N a).col_parities.getD c 0 = (calculate_parities B N a).2 c := by
  rw [mkParityHdr_col, getD_map_range hc]

lemma find_single_flip {B N : Nat} (a : Nat → Nat) {p k : Nat}
    (hB : 0 < B) (hp : p < B * N) (hk : k < 8) :
    find_error_locations (mkParityHdr B N a) (mkParityHdr B N (flipBit a p k)) =
      Except.ok (8 * (p % B) + k, p / B) := by
  have hr0 : p % B < B := Nat.mod_lt p hB
  have hc0 : p / B < N := Nat.div_lt_of_lt_mul hp
  have hmaskne : (128 >>> k) ≠ 0 := by interval_cases k <;> decide
  have hmasklt : 128 >>> k < 256 := by interval_cases k <;> decide
  have hcolscan : scan_mismatch (mkParityHdr B N a).N (mkParityHdr B N a).col_parities
      (mkParityHdr B N (flipBit a p k)).col_parities = (1, ((p / B : Nat) : Int)) := by
    rw [mkParityHdr_N]
    refine scan_mismatch_unique hc0 ?_ ?_
    · rw [mk_col_getD a hc0, mk_col_getD _ hc0, flip_col_parities a hp hk, if_pos rfl]
      exact ne_xor_one _
    · intro c hc hne
      rw [mk_col_getD a hc, mk_col_getD _ hc, flip_col_parities a hp hk, if_neg hne]
  have hrowscan : scan_mismatch (mkParityHdr B N a).B (mkParityHdr B N a).row_parities
      (mkParityHdr B N (flipBit a p k)).row_parities = (1, ((p % B : Nat) : Int)) := by
    rw [mkParityHdr_B]
    refine scan_mismatch_unique hr0 ?_ ?_
    · rw [mk_row_getD a hr0, mk_row_getD _ hr0, flip_row_parities a k hp, if_pos rfl]
      exact ne_xor_mask hmaskne
    · intro r hr hne
      rw [mk_row_getD a hr, mk_row_getD _ hr, flip_row_parities a k hp, if_neg hne]
  have hflips : (mkParityHdr B N a).row_parities.getD (p % B) 0 ^^^
      (mkParityHdr B N (flipBit a p k)).row_parities.getD (p % B) 0 = 128 >>> k := by
    rw [mk_row_getD a hr0, mk_row_getD _ hr0, flip_row_parities a k hp, if_pos rfl,
      Nat.xor_cancel_left]
  rw [find_error_locations, hcolscan, hrowscan]
  dsimp only
  rw [if_neg (by decide), if_neg (by decide), if_neg (by decide), if_neg (by decide)]
  simp only [Int.toNat_ofNat]
  rw [hflips, Nat.mod_eq_of_lt hmasklt, bit_scan_mask hk]
  dsimp only
  rw [if_neg (by decide)]
  simp only [Int.toNat_ofNat]

/-- C1 main lemma: repairing a buffer whose single bit `k` of byte `p` was
flipped restores the original buffer and reports success. -/
lemma repair_restores_single_flip {B N : Nat} (a : Nat → Nat) {p k : Nat}
    (hB : 0 < B) (hp : p < B * N) (hk : k < 8) :
    repair_byte_array (mkParityHdr B N a) (mkParityHdr B N (flipBit a p k)) (flipBit a p k) =
      (Except.ok (), a) := by
  have hr0 : p % B < B := Nat.mod_lt p hB
  have hmaskne : (128 >>> k) ≠ 0 := by interval_cases k <;> decide
  have hrowne : (mkParityHdr B N a).row_parities.getD (p % B) 0 ≠
      (mkParityHdr B N (flipBit a p k)).row_parities.getD (p % B) 0 := by
    rw [mk_row_getD a hr0, mk_row_getD _ hr0, flip_row_parities a k hp, if_pos rfl]
    exact ne_xor_mask hmaskne
  have hEqFalse : ¬(hdrEq (mkParityHdr B N a) (mkParityHdr B N (flipBit a p k)) = true) := by
    intro hEq
    exact hrowne (hdrEq_row_of_true hEq (by rw [mkParityHdr_B]; exact hr0))
  have harith1 : (8 * (p % B) + k) / 8 = p % B := by omega
  have harith2 : (8 * (p % B) + k) % 8 = k := by omega
  have hpos : p / B * (mkParityHdr B N a).B + (8 * (p % B) + k) / 8 = p := by
    rw [mkParityHdr_B, harith1, Nat.mul_comm]
    exact Nat.div_add_mod p B
  rw [repair_byte_array, mkParityHdr_confirm]
  rw [if_neg (by decide)]
  rw [if_neg hEqFalse]
  have hdim : ((mkParityHdr B N a).B != (mkParityHdr B N (flipBit a p k)).B ||
      (mkParityHdr B N a).N != (mkParityHdr B N (flipBit a p k)).N) = false := by
    rw [mkParityHdr_B, mkParityHdr_B, mkParityHdr_N, mkParityHdr_N,
      bne_self_eq_false, bne_self_eq_false]
    rfl
  rw [if_neg (by rw [hdim]; exact Bool.false_ne_true)]
  rw [find_single_flip a hB hp hk]
  simp only [Prod.mk.injEq]
  refine ⟨trivial, ?_⟩
  funext x
  rw [hpos, harith2]
  by_cases hx : x = p
  · rw [if_pos hx, hx, flipBit_self, Nat.xor_cancel_right]
  · rw [if_neg hx, flipBit_other a p k hx]

/-! ### Helper lemmas: layout of a serialized header -/

lemma prefixBytes_length (h : ParityHdr) : (prefixBytes h).length = 8 := rfl

lemma serialize_len3 (h : ParityHdr) :
    (prefixBytes h ++ prefixBytes h ++ le32 (sum_row_parities h) ++
      (List.range h.B).map (fun b => h.row_parities.getD b 0)).length = 20 + h.B := by
  simp [prefixBytes, le32, le16]
  omega

lemma serialize_len2 (h : ParityHdr) :
    (prefixBytes h ++ prefixBytes h ++ le32 (sum_row_parities h)).length = 20 := by
  simp [prefixBytes, le32, le16]

lemma serialize_len1 (h : ParityHdr) : (prefixBytes h ++ prefixBytes h).length = 16 := by
  simp [prefixBytes, le32, le16]

lemma serialize_getD_pre1 (h : ParityHdr) {m : Nat} (hm : m < 8) :
    (serialize h).getD m 0 = (prefixBytes h).getD m 0 := by
  have l3 := serialize_len3 h
  have l2 := serialize_len2 h
  have l1 := serialize_len1 h
  have l0 := prefixBytes_length h
  rw [serialize, getD_append_lt _ _ _ (by omega), getD_append_lt _ _ _ (by omega),
    getD_append_lt _ _ _ (by omega), getD_append_lt _ _ _ (by omega)]

lemma serialize_getD_pre2 (h : ParityHdr) {m : Nat} (hm : m < 8) :
    (serialize h).getD (8 + m) 0 = (prefixBytes h).getD m 0 := by
  have l3 := serialize_len3 h
  have l2 := serialize_len2 h
  have l1 := serialize_len1 h
  have l0 := prefixBytes_length h
  rw [serialize, getD_append_lt _ _ _ (by omega), getD_append_lt _ _ _ (by omega),
    getD_append_lt _ _ _ (by omega), getD_append_ge _ _ _ (by omega), l0]
  congr 1
  omega

lemma serialize_getD_sumfield (h : ParityHdr) {m : Nat} (hm : 16 ≤ m) (hm4 : m < 20) :
    (serialize h).getD m 0 = (le32 (sum_row_parities h)).getD (m - 16) 0 := by
  have l3 := serialize_len3 h
  have l2 := serialize_len2 h
  have l1 := serialize_len1 h
  rw [serialize, getD_append_lt _ _ _ (by omega), getD_append_lt _ _ _ (by omega),
    getD_append_ge _ _ _ (by omega), l1]

lemma serialize_getD_row (h : ParityHdr) {b : Nat} (hb : b < h.B) :
    (serialize h).getD (20 + b) 0 = h.row_parities.getD b 0 := by
  have l3 := serialize_len3 h
  have l2 := serialize_len2 h
  rw [serialize, getD_append_lt _ _ _ (by omega), getD_append_ge _ _ _ (by omega), l2]
  have : 20 + b - 20 = b := by omega
  rw [this, getD_map_range hb]

lemma serialize_getD_col (h : ParityHdr) {c : Nat} (hc : c < h.N) :
    (serialize h).getD (20 + h.B + c) 0 = h.col_parities.getD c 0 := by
  have l3 := serialize_len3 h
  rw [serialize, getD_append_ge _ _ _ (by omega), l3]
  have : 20 + h.B + c - (20 + h.B) = c := by omega
  rw [this, getD_map_range hc]

lemma le32_getD0 (x : Nat) : (le32 x).getD 0 0 = x % 256 := rfl

lemma le32_getD1 (x : Nat) : (le32 x).getD 1 0 = x / 256 % 256 := rfl

lemma le32_getD2 (x : Nat) : (le32 x).getD 2 0 = x / 65536 % 256 := rfl

lemma le32_getD3 (x : Nat) : (le32 x).getD 3 0 = x / 16777216 % 256 := rfl

lemma pB_getD0 (h : ParityHdr) : (prefixBytes h).getD 0 0 = h.check_sum % 256 := rfl

lemma pB_getD1 (h : ParityHdr) : (prefixBytes h).getD 1 0 = h.check_sum / 256 % 256 := rfl

lemma pB_getD2 (h : ParityHdr) : (prefixBytes h).getD 2 0 = h.check_sum / 65536 % 256 := rfl

lemma pB_getD3 (h : ParityHdr) : (prefixBytes h).getD 3 0 = h.check_sum / 16777216 % 256 := rfl

lemma pB_getD4 (h : ParityHdr) : (prefixBytes h).getD 4 0 = h.B % 256 := rfl

lemma pB_getD5 (h : ParityHdr) : (prefixBytes h).getD 5 0 = h.B / 256 % 256 := rfl

lemma pB_getD6 (h : ParityHdr) : (prefixBytes h).getD 6 0 = h.N % 256 := rfl

lemma pB_getD7 (h : ParityHdr) : (prefixBytes h).getD 7 0 = h.N / 256 % 256 := rfl

lemma rd32_serialize_cs (h : ParityHdr) :
    rd32 (serialize h) 0 = h.check_sum % 4294967296 := by
  rw [rd32]
  show (serialize h).getD 0 0 + 256 * (serialize h).getD 1 0 +
    65536 * (serialize h).getD 2 0 + 16777216 * (serialize h).getD 3 0 =
    h.check_sum % 4294967296
  rw [serialize_getD_pre1 h (by norm_num), serialize_getD_pre1 h (by norm_num),
    serialize_getD_pre1 h (by norm_num), serialize_getD_pre1 h (by norm_num)]
  rw [pB_getD0, pB_getD1, pB_getD2, pB_getD3]
  omega

lemma rd16_serialize_B (h : ParityHdr) : rd16 (serialize h) 4 = h.B % 65536 := by
  rw [rd16]
  show (serialize h).getD 4 0 + 256 * (serialize h).getD 5 0 = h.B % 65536
  rw [serialize_getD_pre1 h (by norm_num), serialize_getD_pre1 h (by norm_num)]
  rw [pB_getD4, pB_getD5]
  omega

lemma rd16_serialize_N (h : ParityHdr) : rd16 (serialize h) 6 = h.N % 65536 := by
  rw [rd16]
  show (serialize h).getD 6 0 + 256 * (serialize h).getD 7 0 = h.N % 65536
  rw [serialize_getD_pre1 h (by norm_num), serialize_getD_pre1 h (by norm_num)]
  rw [pB_getD6, pB_getD7]
  omega

lemma rd32_serialize_sum (h : ParityHdr) :
    rd32 (serialize h) 16 = sum_row_parities h % 4294967296 := by
  rw [rd32]
  show (serialize h).getD 16 0 + 256 * (serialize h).getD 17 0 +
    65536 * (serialize h).getD 18 0 + 16777216 * (serialize h).getD 19 0 =
    sum_row_parities h % 4294967296
  rw [serialize_getD_sumfield h (by norm_num) (by norm_num),
    serialize_getD_sumfield h (by norm_num) (by norm_num),
    serialize_getD_sumfield h (by norm_num) (by norm_num),
    serialize_getD_sumfield h (by norm_num) (by norm_num)]
  show (le32 (sum_row_parities h)).getD 0 0 + 256 * (le32 (sum_row_parities h)).getD 1 0 +
    65536 * (le32 (sum_row_parities h)).getD 2 0 +
    16777216 * (le32 (sum_row_parities h)).getD 3 0 = sum_row_parities h % 4294967296
  rw [le32_getD0, le32_getD1, le32_getD2, le32_getD3]
  omega

/-! ### Helper lemmas: well-formedness of a derived header, round trip -/

lemma mk_row_length {B N : Nat} (a : Nat → Nat) :
    (mkParityHdr B N a).row_parities.length = B := by
  rw [mkParityHdr_row]
  simp

lemma mk_col_length {B N : Nat} (a : Nat → Nat) :
    (mkParityHdr B N a).col_parities.length = N := by
  rw [mkParityHdr_col]
  simp

lemma mk_row_lt {B N : Nat} (a : Nat → Nat) (ha : ∀ i, a i < 256) {r : Nat} (hr : r < B) :
    (mkParityHdr B N a).row_parities.getD r 0 < 256 := by
  rw [mk_row_getD a hr, calculate_parities, parityFold_fst]
  have h256 : (256 : Nat) = 2 ^ 8 := by norm_num
  rw [h256]
  refine xorSum_lt_two_pow fun i _ => ?_
  rw [← h256]
  exact ha i

lemma mk_col_le {B N : Nat} (a : Nat → Nat) {c : Nat} (hc : c < N) :
    (mkParityHdr B N a).col_parities.getD c 0 ≤ 1 := by
  rw [mk_col_getD a hc, calculate_parities, parityFold_snd]
  exact xorSum_le_one fun i _ => byte_parity_le_one _

lemma map_getD_range (l : List Nat) :
    (List.range l.length).map (fun i => l.getD i 0) = l := by
  refine List.ext_getElem (by simp) fun i hi1 hi2 => ?_
  simp only [List.getElem_map, List.getElem_range]
  rw [List.getD_eq_getElem?_getD, List.getElem?_eq_getElem hi2]
  rfl

lemma sum_getD_range_le (l : List Nat) (c : Nat) (h : ∀ i, i < l.length → l.getD i 0 ≤ c) :
    l.sum ≤ l.length * c := by
  rw [← sumTerms_getD_range]
  have := sumTerms_le (fun i => l.getD i 0) (List.range l.length) c
    (fun i hi => h i (List.mem_range.mp hi))
  simpa using this

lemma mk_check_sum_calc {B N : Nat} (a : Nat → Nat) :
    (mkParityHdr B N a).check_sum = calc_check_sum (mkParityHdr B N a) := rfl

lemma mk_check_sum_closed {B N : Nat} (a : Nat → Nat) (ha : ∀ i, a i < 256)
    (hB : B < 65536) (hN : N < 65536) :
    (mkParityHdr B N a).check_sum = B + N + (mkParityHdr B N a).row_parities.sum +
      (mkParityHdr B N a).col_parities.sum := by
  have hlr : (mkParityHdr B N a).row_parities.length = (mkParityHdr B N a).B := by
    rw [mk_row_length, mkParityHdr_B]
  have hlc : (mkParityHdr B N a).col_parities.length = (mkParityHdr B N a).N := by
    rw [mk_col_length, mkParityHdr_N]
  have hrs : (mkParityHdr B N a).row_parities.sum ≤ B * 255 := by
    have hb := sum_getD_range_le (mkParityHdr B N a).row_parities 255 fun i hi => by
      rw [mk_row_length] at hi
      have := mk_row_lt (B := B) (N := N) a ha hi
      omega
    rw [mk_row_length] at hb
    exact hb
  have hcs : (mkParityHdr B N a).col_parities.sum ≤ N * 1 := by
    have hb := sum_getD_range_le (mkParityHdr B N a).col_parities 1 fun i hi => by
      rw [mk_col_length] at hi
      exact mk_col_le (B := B) (N := N) a hi
    rw [mk_col_length] at hb
    exact hb
  rw [mk_check_sum_calc, calc_check_sum_eq _ hlr hlc, mkParityHdr_B, mkParityHdr_N]
  exact Nat.mod_eq_of_lt (by omega)

lemma mk_check_sum_lt {B N : Nat} (a : Nat → Nat) (ha : ∀ i, a i < 256)
    (hB : B < 65536) (hN : N < 65536) :
    (mkParityHdr B N a).check_sum < 4294967296 := by
  have hrs : (mkParityHdr B N a).row_parities.sum ≤ B * 255 := by
    have hb := sum_getD_range_le (mkParityHdr B N a).row_parities 255 fun i hi => by
      rw [mk_row_length] at hi
      have := mk_row_lt (B := B) (N := N) a ha hi
      omega
    rw [mk_row_length] at hb
    exact hb
  have hcs : (mkParityHdr B N a).col_parities.sum ≤ N * 1 := by
    have hb := sum_getD_range_le (mkParityHdr B N a).col_parities 1 fun i hi => by
      rw [mk_col_length] at hi
      exact mk_col_le (B := B) (N := N) a hi
    rw [mk_col_length] at hb
    exact hb
  rw [mk_check_sum_closed a ha hB hN]
  omega

lemma foldl_congr_on {α : Type} (l : List Nat) (F G : α → Nat → α) (z : α)
    (h : ∀ s i, i ∈ l → F s i = G s i) : l.foldl F z = l.foldl G z := by
  induction l generalizing z with
  | nil => rfl
  | cons x l ih =>
    simp only [List.foldl_cons]
    rw [h z x (List.mem_cons_self x l)]
    exact ih (G z x) fun s i hi => h s i (List.mem_cons_of_mem x hi)

lemma load_serialize_mk {B N : Nat} (a : Nat → Nat) (h0 : ParityHdr)
    (ha : ∀ i, a i < 256) (hB : B < 65536) (hN : N < 65536) :
    load_from_serialized h0 (serialize (mkParityHdr B N a)) = (true, mkParityHdr B N a) := by
  have hcslt := mk_check_sum_lt a ha hB hN
  have hcsm : (mkParityHdr B N a).check_sum % 4294967296 = (mkParityHdr B N a).check_sum :=
    Nat.mod_eq_of_lt hcslt
  have hBm : (mkParityHdr B N a).B % 65536 = (mkParityHdr B N a).B := by
    rw [mkParityHdr_B]
    exact Nat.mod_eq_of_lt hB
  have hNm : (mkParityHdr B N a).N % 65536 = (mkParityHdr B N a).N := by
    rw [mkParityHdr_N]
    exact Nat.mod_eq_of_lt hN
  have hpre : ((List.range 8).any fun k =>
      (serialize (mkParityHdr B N a)).getD k 0 !=
        (serialize (mkParityHdr B N a)).getD (8 + k) 0) = false := by
    rw [List.any_eq_false]
    intro x hx
    rw [serialize_getD_pre1 _ (List.mem_range.mp hx), serialize_getD_pre2 _ (List.mem_range.mp hx)]
    simp
  have hbound : ¬((mkParityHdr B N a).B + (mkParityHdr B N a).N >
      (mkParityHdr B N a).check_sum) := by
    rw [mkParityHdr_B, mkParityHdr_N, mk_check_sum_closed a ha hB hN]
    omega
  have hsum : (List.range (mkParityHdr B N a).B).foldl
      (fun s b => (s + (serialize (mkParityHdr B N a)).getD (20 + b) 0) % 4294967296) 0 =
      sum_row_parities (mkParityHdr B N a) := by
    rw [sum_row_parities]
    refine foldl_congr_on _ _ _ _ fun s b hb => ?_
    rw [serialize_getD_row _ (List.mem_range.mp hb)]
  have hsumlt : sum_row_parities (mkParityHdr B N a) < 4294967296 := by
    rw [sum_row_parities_eq _ (by rw [mk_row_length, mkParityHdr_B])]
    exact Nat.mod_lt _ (by norm_num)
  have hsumm : sum_row_parities (mkParityHdr B N a) % 4294967296 =
      sum_row_parities (mkParityHdr B N a) := Nat.mod_eq_of_lt hsumlt
  have hrowmap : (List.range (mkParityHdr B N a).B).map
      (fun b => (serialize (mkParityHdr B N a)).getD (20 + b) 0) =
      (mkParityHdr B N a).row_parities := by
    rw [List.map_congr_left fun b hb => serialize_getD_row _ (List.mem_range.mp hb)]
    have hl : (mkParityHdr B N a).B = (mkParityHdr B N a).row_parities.length := by
      rw [mk_row_length, mkParityHdr_B]
    rw [hl, map_getD_range]
  have hcolmap : (List.range (mkParityHdr B N a).N).map
      (fun c => (serialize (mkParityHdr B N a)).getD (20 + (mkParityHdr B N a).B + c) 0) =
      (mkParityHdr B N a).col_parities := by
    rw [List.map_congr_left fun c hc => serialize_getD_col _ (List.mem_range.mp hc)]
    have hl : (mkParityHdr B N a).N = (mkParityHdr B N a).col_parities.length := by
      rw [mk_col_length, mkParityHdr_N]
    rw [hl, map_getD_range]
  rw [load_from_serialized, hpre, if_neg Bool.false_ne_true]
  dsimp only
  rw [rd32_serialize_cs, rd16_serialize_B, rd16_serialize_N, hcsm, hBm, hNm,
    if_neg hbound, hsum, rd32_serialize_sum, hsumm, bne_self_eq_false,
    if_neg Bool.false_ne_true, hrowmap, hcolmap]
  have heta : ParityHdr.mk (mkParityHdr B N a).check_sum (mkParityHdr B N a).B
      (mkParityHdr B N a).N (mkParityHdr B N a).row_parities
      (mkParityHdr B N a).col_parities = mkParityHdr B N a := rfl
  rw [heta, mkParityHdr_confirm]

/-! ### Helper lemmas: failing loads and corrupted serializations -/

lemma load_failure_frame (h0 : ParityHdr) (ser : List Nat) :
    (load_from_serialized h0 ser).1 = false →
    ((load_from_serialized h0 ser).2.row_parities = h0.row_parities ∧
      (load_from_serialized h0 ser).2.col_parities = h0.col_parities) ∨
    confirm_check_sum (load_from_serialized h0 ser).2 = false := by
  rw [load_from_serialized]
  split
  · intro _
    left
    exact ⟨rfl, rfl⟩
  · dsimp only
    split
    · intro _
      left
      exact ⟨rfl, rfl⟩
    · split
      · intro _
        left
        exact ⟨rfl, rfl⟩
      · intro hf
        right
        exact hf

lemma serialize_length (h : ParityHdr) : (serialize h).length = 20 + h.B + h.N := by
  simp [serialize, prefixBytes, le32, le16]
  omega

lemma sum_row_parities_lt (h : ParityHdr) : sum_row_parities h < 4294967296 := by
  rw [sum_row_parities, show (0 : Nat) = 0 % 4294967296 from rfl, foldl_addmod]
  exact Nat.mod_lt _ (by norm_num)

lemma rd32_at_16 (s : List Nat) : rd32 s 16 =
    s.getD 16 0 + 256 * s.getD 17 0 + 65536 * s.getD 18 0 + 16777216 * s.getD 19 0 := rfl

lemma load_prefix_mismatch (h0 : ParityHdr) (ser : List Nat) {m : Nat} (hm : m < 8)
    (hne : ser.getD m 0 ≠ ser.getD (8 + m) 0) :
    load_from_serialized h0 ser = (false, h0) := by
  rw [load_from_serialized,
    if_pos (List.any_eq_true.mpr ⟨m, List.mem_range.mpr hm, by simpa using hne⟩)]

lemma flipSerByte_self (s : List Nat) {d : Nat} (k : Nat) (hd : d < s.length) :
    (flipSerByte s d k).getD d 0 = s.getD d 0 ^^^ 2 ^ k := by
  rw [flipSerByte, getD_set_self _ _ _ hd, Nat.one_shiftLeft]

lemma flipSerByte_other (s : List Nat) (d k : Nat) {n : Nat} (hn : n ≠ d) :
    (flipSerByte s d k).getD n 0 = s.getD n 0 := by
  rw [flipSerByte, getD_set_other _ _ _ _ (fun hdn => hn hdn.symm)]

lemma two_pow_ne_zero (k : Nat) : (2 : Nat) ^ k ≠ 0 := by
  have := Nat.pos_pow_of_pos k (show 0 < 2 by norm_num)
  omega

lemma load_flip_prefix (hdr h0 : ParityHdr) {d : Nat} (k : Nat) (hd : d < 16) :
    load_from_serialized h0 (flipSerByte (serialize hdr) d k) = (false, h0) := by
  have hlen : d < (serialize hdr).length := by
    rw [serialize_length]
    omega
  by_cases hd8 : d < 8
  · refine load_prefix_mismatch h0 _ hd8 ?_
    rw [flipSerByte_self _ k hlen, flipSerByte_other _ d k (by omega),
      serialize_getD_pre1 hdr hd8, serialize_getD_pre2 hdr hd8]
    exact fun hcontra => ne_xor_mask (two_pow_ne_zero k) hcontra.symm
  · have hm : d - 8 < 8 := by omega
    refine load_prefix_mismatch h0 _ hm ?_
    have h8m : 8 + (d - 8) = d := by omega
    rw [flipSerByte_other _ d k (by omega), h8m, flipSerByte_self _ k hlen,
      serialize_getD_pre1 hdr hm, ← h8m, serialize_getD_pre2 hdr hm,
      show 8 + (d - 8) - 8 = d - 8 from by omega]
    exact ne_xor_mask (two_pow_ne_zero k)

lemma rd32_flip_sum_ne (hdr : ParityHdr) {d k : Nat} (hd1 : 16 ≤ d) (hd2 : d < 20)
    (hk : k < 8) :
    rd32 (flipSerByte (serialize hdr) d k) 16 ≠ sum_row_parities hdr := by
  have hlen : d < (serialize hdr).length := by
    rw [serialize_length]
    omega
  have hSlt := sum_row_parities_lt hdr
  have h2k : (2 : Nat) ^ k < 256 := by
    have h28 : (256 : Nat) = 2 ^ 8 := by norm_num
    rw [h28]
    exact Nat.pow_lt_pow_right (by norm_num) hk
  have s16 : (serialize hdr).getD 16 0 = sum_row_parities hdr % 256 := by
    rw [serialize_getD_sumfield hdr (by norm_num) (by norm_num)]
    rfl
  have s17 : (serialize hdr).getD 17 0 = sum_row_parities hdr / 256 % 256 := by
    rw [serialize_getD_sumfield hdr (by norm_num) (by norm_num)]
    rfl
  have s18 : (serialize hdr).getD 18 0 = sum_row_parities hdr / 65536 % 256 := by
    rw [serialize_getD_sumfield hdr (by norm_num) (by norm_num)]
    rfl
  have s19 : (serialize hdr).getD 19 0 = sum_row_parities hdr / 16777216 % 256 := by
    rw [serialize_getD_sumfield hdr (by norm_num) (by norm_num)]
    rfl
  interval_cases d
  · rw [rd32_at_16, flipSerByte_self _ k hlen, flipSerByte_other _ _ k (by omega),
      flipSerByte_other _ _ k (by omega), flipSerByte_other _ _ k (by omega),
      s16, s17, s18, s19]
    have hxne : sum_row_parities hdr % 256 ^^^ 2 ^ k ≠ sum_row_parities hdr % 256 :=
      fun hcontra => ne_xor_mask (two_pow_ne_zero k) hcontra.symm
    have hxlt : sum_row_parities hdr % 256 ^^^ 2 ^ k < 256 := by
      have h28 : (256 : Nat) = 2 ^ 8 := by norm_num
      rw [h28]
      exact Nat.xor_lt_two_pow (by omega) (by omega)
    omega
  · rw [rd32_at_16, flipSerByte_self _ k hlen, flipSerByte_other _ _ k (by omega),
      flipSerByte_other _ _ k (by omega), flipSerByte_other _ _ k (by omega),
      s16, s17, s18, s19]
    have hxne : sum_row_parities hdr / 256 % 256 ^^^ 2 ^ k ≠
        sum_row_parities hdr / 256 % 256 :=
      fun hcontra => ne_xor_mask (two_pow_ne_zero k) hcontra.symm
    have hxlt : sum_row_parities hdr / 256 % 256 ^^^ 2 ^ k < 256 := by
      have h28 : (256 : Nat) = 2 ^ 8 := by norm_num
      rw [h28]
      exact Nat.xor_lt_two_pow (by omega) (by omega)
    omega
  · rw [rd32_at_16, flipSerByte_self _ k hlen, flipSerByte_other _ _ k (by omega),
      flipSerByte_other _ _ k (by omega), flipSerByte_other _ _ k (by omega),
      s16, s17, s18, s19]
    have hxne : sum_row_parities hdr / 65536 % 256 ^^^ 2 ^ k ≠
        sum_row_parities hdr / 65536 % 256 :=
      fun hcontra => ne_xor_mask (two_pow_ne_zero k) hcontra.symm
    have hxlt : sum_row_parities hdr / 65536 % 256 ^^^ 2 ^ k < 256 := by
      have h28 : (256 : Nat) = 2 ^ 8 := by norm_num
      rw [h28]
      exact Nat.xor_lt_two_pow (by omega) (by omega)
    omega
  · rw [rd32_at_16, flipSerByte_self _ k hlen, flipSerByte_other _ _ k (by omega),
      flipSerByte_other _ _ k (by omega), flipSerByte_other _ _ k (by omega),
      s16, s17, s18, s19]
    have hxne : sum_row_parities hdr / 16777216 % 256 ^^^ 2 ^ k ≠
        sum_row_parities hdr / 16777216 % 256 :=
      fun hcontra => ne_xor_mask (two_pow_ne_zero k) hcontra.symm
    have hxlt : sum_row_parities hdr / 16777216 % 256 ^^^ 2 ^ k < 256 := by
      have h28 : (256 : Nat) = 2 ^ 8 := by norm_num
      rw [h28]
      exact Nat.xor_lt_two_pow (by omega) (by omega)
    omega

lemma load_flip_sumfield (hdr h0 : ParityHdr) {d k : Nat} (hd1 : 16 ≤ d) (hd2 : d < 20)
    (hk : k < 8) (hcs : hdr.check_sum < 4294967296) (hB : hdr.B < 65536)
    (hN : hdr.N < 65536) :
    load_from_serialized h0 (flipSerByte (serialize hdr) d k) =
      (false, { h0 with check_sum := hdr.check_sum, B := hdr.B, N := hdr.N }) := by
  have hpre : ((List.range 8).any fun x =>
      (flipSerByte (serialize hdr) d k).getD x 0 !=
        (flipSerByte (serialize hdr) d k).getD (8 + x) 0) = false := by
    rw [List.any_eq_false]
    intro x hx
    have hx8 := List.mem_range.mp hx
    rw [flipSerByte_other _ d k (by omega), flipSerByte_other _ d k (by omega),
      serialize_getD_pre1 hdr hx8, serialize_getD_pre2 hdr hx8]
    simp
  have hrd0 : rd32 (flipSerByte (serialize hdr) d k) 0 = hdr.check_sum := by
    have he : rd32 (flipSerByte (serialize hdr) d k) 0 = rd32 (serialize hdr) 0 := by
      rw [rd32, rd32, flipSerByte_other _ d k (by omega), flipSerByte_other _ d k (by omega),
        flipSerByte_other _ d k (by omega), flipSerByte_other _ d k (by omega)]
    rw [he, rd32_serialize_cs, Nat.mod_eq_of_lt hcs]
  have hrd4 : rd16 (flipSerByte (serialize hdr) d k) 4 = hdr.B := by
    have he : rd16 (flipSerByte (serialize hdr) d k) 4 = rd16 (serialize hdr) 4 := by
      rw [rd16, rd16, flipSerByte_other _ d k (by omega), flipSerByte_other _ d k (by omega)]
    rw [he, rd16_serialize_B, Nat.mod_eq_of_lt hB]
  have hrd6 : rd16 (flipSerByte (serialize hdr) d k) 6 = hdr.N := by
    have he : rd16 (flipSerByte (serialize hdr) d k) 6 = rd16 (serialize hdr) 6 := by
      rw [rd16, rd16, flipSerByte_other _ d k (by omega), flipSerByte_other _ d k (by omega)]
    rw [he, rd16_serialize_N, Nat.mod_eq_of_lt hN]
  have hsum : (List.range hdr.B).foldl
      (fun s b => (s + (flipSerByte (serialize hdr) d k).getD (20 + b) 0) % 4294967296) 0 =
      sum_row_parities hdr := by
    rw [sum_row_parities]
    refine foldl_congr_on _ _ _ _ fun s b hb => ?_
    rw [flipSerByte_other _ d k (by omega), serialize_getD_row _ (List.mem_range.mp hb)]
  rw [load_from_serialized, hpre, if_neg Bool.false_ne_true]
  dsimp only
  rw [hrd0, hrd4, hrd6]
  by_cases hbc : hdr.B + hdr.N > hdr.check_sum
  · rw [if_pos hbc]
  · rw [if_neg hbc, hsum,
      if_pos (bne_iff_ne.mpr (Ne.symm (rd32_flip_sum_ne hdr hd1 hd2 hk)))]

/-! ### Helper lemmas: repair failure frame and error taxonomy -/

lemma repair_ok_of_hdrEq (rcvd_hdr t_hdr : ParityHdr) (t : Nat → Nat)
    (hc : confirm_check_sum rcvd_hdr = true) (he : hdrEq rcvd_hdr t_hdr = true) :
    repair_byte_array rcvd_hdr t_hdr t = (Except.ok (), t) := by
  rw [repair_byte_array, hc]
  rw [if_neg (by decide), if_pos he]

lemma repair_error_frame (rcvd_hdr t_hdr : ParityHdr) (t : Nat → Nat) (e : String)
    (hf : (repair_byte_array rcvd_hdr t_hdr t).1 = Except.error e) :
    (repair_byte_array rcvd_hdr t_hdr t).2 = t := by
  rw [repair_byte_array] at hf ⊢
  by_cases c1 : (!confirm_check_sum rcvd_hdr) = true
  · rw [if_pos c1]
  · rw [if_neg c1] at hf ⊢
    by_cases c2 : hdrEq rcvd_hdr t_hdr = true
    · rw [if_pos c2] at hf
      exact absurd hf (by simp)
    · rw [if_neg c2] at hf ⊢
      by_cases c3 : (rcvd_hdr.B != t_hdr.B || rcvd_hdr.N != t_hdr.N) = true
      · rw [if_pos c3]
      · rw [if_neg c3] at hf ⊢
        cases hfind : find_error_locations rcvd_hdr t_hdr with
        | error e' => rfl
        | ok ij =>
          rw [hfind] at hf
          exact absurd hf (by simp)

lemma find_error_msgs (rcvd_hdr t_hdr : ParityHdr) (e : String)
    (h : find_error_locations rcvd_hdr t_hdr = Except.error e) :
    e = msgNoCol ∨ e = msgManyCol ∨ e = msgNoRow ∨ e = msgManyRow ∨ e = msgManyBit := by
  rw [find_error_locations] at h
  dsimp only at h
  split at h
  · exact Or.inl (Except.error.inj h).symm
  · split at h
    · exact Or.inr (Or.inl (Except.error.inj h).symm)
    · split at h
      · exact Or.inr (Or.inr (Or.inl (Except.error.inj h).symm))
      · split at h
        · exact Or.inr (Or.inr (Or.inr (Or.inl (Except.error.inj h).symm)))
        · split at h
          · exact Or.inr (Or.inr (Or.inr (Or.inr (Except.error.inj h).symm)))
          · exact absurd h (by simp)

lemma repair_error_msgs (rcvd_hdr t_hdr : ParityHdr) (t : Nat → Nat) (e : String)
    (hf : (repair_byte_array rcvd_hdr t_hdr t).1 = Except.error e) :
    e = msgBadCheckSum ∨ e = msgDimMismatch ∨ e = msgNoCol ∨ e = msgManyCol ∨
      e = msgNoRow ∨ e = msgManyRow ∨ e = msgManyBit := by
  rw [repair_byte_array] at hf
  split at hf
  · exact Or.inl (Except.error.inj hf).symm
  · split at hf
    · exact absurd hf (by simp)
    · split at hf
      · exact Or.inr (Or.inl (Except.error.inj hf).symm)
      · rename_i hfind
        split at hf
        · rename_i e' hcase
          have he' : e' = e := Except.error.inj hf
          subst he'
          exact Or.inr (Or.inr (find_error_msgs _ _ _ hcase))
        · exact absurd hf (by simp)

/-! ## Claim theorems -/

/-- C1: for every pair of positive dimensions `rows = B`, `cols = N` and every
buffer that differs from a trusted buffer in exactly one bit (byte position
`p < B * N`, MSB-first bit `k < 8`), calling `repair_byte_array` with the
trusted buffer's header (which passes `confirm_check_sum`) and the header
freshly derived from the corrupted buffer flips that bit back, leaving the
buffer byte-identical to the trusted original, for every possible single-bit
flip position. -/
theorem claim_C1_single_bit_repair (B N : Nat) (t0 : Nat → Nat) (p k : Nat)
    (hB : 0 < B) (_hN : 0 < N) (hp : p < B * N) (hk : k < 8) :
    confirm_check_sum (mkParityHdr B N t0) = true ∧
    repair_byte_array (mkParityHdr B N t0) (mkParityHdr B N (flipBit t0 p k))
      (flipBit t0 p k) = (Except.ok (), t0) :=
  ⟨mkParityHdr_confirm B N t0, repair_restores_single_flip t0 hB hp hk⟩

/-- C1 witness: the spec's concrete 3x3 scenario, all-zero buffer with bit 3
(MSB-first) of byte 4 flipped. -/
theorem claim_C1_witness :
    0 < 3 ∧ 4 < 3 * 3 ∧ 3 < 8 ∧
    (confirm_check_sum (mkParityHdr 3 3 (fun _ => 0)) = true ∧
      repair_byte_array (mkParityHdr 3 3 (fun _ => 0))
        (mkParityHdr 3 3 (flipBit (fun _ => 0) 4 3)) (flipBit (fun _ => 0) 4 3) =
        (Except.ok (), fun _ => 0)) :=
  ⟨by decide, by decide, by decide,
    claim_C1_single_bit_repair 3 3 (fun _ => 0) 4 3 (by decide) (by decide) (by decide)
      (by decide)⟩

/-- C2: for every header derived from a buffer of length `rows * cols` (with
positive 16-bit dimensions and byte-valued buffer), deserializing its
serialization into any header succeeds, and the resulting header equals the
original per `operator==` and passes `confirm_check_sum`. -/
theorem claim_C2_roundtrip (B N : Nat) (a : Nat → Nat) (h0 : ParityHdr)
    (_hB0 : 0 < B) (_hN0 : 0 < N) (hB : B < 65536) (hN : N < 65536)
    (ha : ∀ i, a i < 256) :
    (load_from_serialized h0 (serialize (mkParityHdr B N a))).1 = true ∧
    hdrEq (load_from_serialized h0 (serialize (mkParityHdr B N a))).2
      (mkParityHdr B N a) = true ∧
    confirm_check_sum (load_from_serialized h0 (serialize (mkParityHdr B N a))).2 = true := by
  rw [load_serialize_mk a h0 ha hB hN]
  exact ⟨rfl, hdrEq_refl _, mkParityHdr_confirm B N a⟩

/-- C2 witness: a 2x3 buffer of distinct bytes, loaded into the default
header. -/
theorem claim_C2_witness :
    0 < 2 ∧ 0 < 3 ∧ 2 < 65536 ∧ 3 < 65536 ∧ (∀ i : Nat, (fun j => j % 7) i < 256) ∧
    ((load_from_serialized defaultHdr (serialize (mkParityHdr 2 3 (fun j => j % 7)))).1 = true ∧
      hdrEq (load_from_serialized defaultHdr (serialize (mkParityHdr 2 3 (fun j => j % 7)))).2
        (mkParityHdr 2 3 (fun j => j % 7)) = true ∧
      confirm_check_sum
        (load_from_serialized defaultHdr (serialize (mkParityHdr 2 3 (fun j => j % 7)))).2 =
        true) :=
  ⟨by decide, by decide, by decide, by decide, fun i => Nat.lt_of_lt_of_le (Nat.mod_lt i
      (by decide)) (by decide),
    claim_C2_roundtrip 2 3 (fun j => j % 7) defaultHdr (by decide) (by decide) (by decide)
      (by decide) (fun i => Nat.lt_of_lt_of_le (Nat.mod_lt i (by decide)) (by decide))⟩

/-- C3: for every buffer and positive dimensions, the construction-time
derivation produces `row_parities[r]` equal to the XOR of all buffer bytes at
positions `i` with `i % rows = r`, and `col_parities[c]` equal to the XOR of
the internal 8-bit parities of the bytes at positions `i` with
`i / rows = c`. -/
theorem claim_C3_derivation (B N : Nat) (a : Nat → Nat) (r c : Nat)
    (_hB : 0 < B) (_hN : 0 < N) (hr : r < B) (hc : c < N) :
    (mkParityHdr B N a).row_parities.getD r 0 =
      xorSum ((List.range (B * N)).filter (fun i => i % B == r)) a ∧
    (mkParityHdr B N a).col_parities.getD c 0 =
      xorSum ((List.range (B * N)).filter (fun i => i / B == c))
        (fun i => byte_parity (a i)) := by
  constructor
  · rw [mk_row_getD a hr, calculate_parities, parityFold_fst]
  · rw [mk_col_getD a hc, calculate_parities, parityFold_snd]

/-- C3 witness: 2x2 buffer `[1, 2, 3, 4]`, row 1 and column 1. -/
theorem claim_C3_witness :
    0 < 2 ∧ 1 < 2 ∧
    ((mkParityHdr 2 2 (fun i => i + 1)).row_parities.getD 1 0 =
      xorSum ((List.range (2 * 2)).filter (fun i => i % 2 == 1)) (fun i => i + 1) ∧
    (mkParityHdr 2 2 (fun i => i + 1)).col_parities.getD 1 0 =
      xorSum ((List.range (2 * 2)).filter (fun i => i / 2 == 1))
        (fun i => byte_parity (i + 1))) :=
  ⟨by decide, by decide,
    claim_C3_derivation 2 2 (fun i => i + 1) 1 1 (by decide) (by decide) (by decide)
      (by decide)⟩

/-- C4: every header freshly constructed from a buffer with positive
dimensions satisfies `check_sum = (rows + cols + sum(row_parities) +
sum(col_parities)) mod 2^32` and therefore passes `confirm_check_sum`. -/
theorem claim_C4_checksum_invariant (B N : Nat) (a : Nat → Nat)
    (_hB : 0 < B) (_hN : 0 < N) :
    (mkParityHdr B N a).check_sum =
      (B + N + (mkParityHdr B N a).row_parities.sum +
        (mkParityHdr B N a).col_parities.sum) % 4294967296 ∧
    confirm_check_sum (mkParityHdr B N a) = true := by
  have hlr : (mkParityHdr B N a).row_parities.length = (mkParityHdr B N a).B := by
    rw [mk_row_length, mkParityHdr_B]
  have hlc : (mkParityHdr B N a).col_parities.length = (mkParityHdr B N a).N := by
    rw [mk_col_length, mkParityHdr_N]
  constructor
  · rw [mk_check_sum_calc, calc_check_sum_eq _ hlr hlc, mkParityHdr_B, mkParityHdr_N]
  · exact mkParityHdr_confirm B N a

/-- C4 witness: 2x3 buffer of bytes `i * 9`. -/
theorem claim_C4_witness :
    0 < 2 ∧ 0 < 3 ∧
    ((mkParityHdr 2 3 (fun i => i * 9)).check_sum =
      (2 + 3 + (mkParityHdr 2 3 (fun i => i * 9)).row_parities.sum +
        (mkParityHdr 2 3 (fun i => i * 9)).col_parities.sum) % 4294967296 ∧
    confirm_check_sum (mkParityHdr 2 3 (fun i => i * 9)) = true) :=
  ⟨by decide, by decide,
    claim_C4_checksum_invariant 2 3 (fun i => i * 9) (by decide) (by decide)⟩

/-- C5 counterexample: `serC5` makes `load_from_serialized` return `false`
(its final checksum confirmation fails), yet the parity arrays have been
replaced and the dimensions mutated, contradicting the claim that parity data
is replaced only on a fully successful deserialization and that dimensions
are not mutated on failure. -/
theorem claim_C5_counterexample :
    (load_from_serialized defaultHdr serC5).1 = false ∧
    (load_from_serialized defaultHdr serC5).2.row_parities ≠ defaultHdr.row_parities ∧
    (load_from_serialized defaultHdr serC5).2.B ≠ defaultHdr.B := by
  decide

/-- C5 (amended): on every failing `load_from_serialized`, either the parity
sequences are left untouched (prefix, dimension-bound or row-sum failures —
though `check_sum`, `rows`, `cols` may already have been overwritten), or the
parity sequences were fully replaced and it is exactly the final checksum
confirmation that failed. -/
theorem claim_C5_failure_frame (h0 : ParityHdr) (ser : List Nat)
    (hf : (load_from_serialized h0 ser).1 = false) :
    ((load_from_serialized h0 ser).2.row_parities = h0.row_parities ∧
      (load_from_serialized h0 ser).2.col_parities = h0.col_parities) ∨
    confirm_check_sum (load_from_serialized h0 ser).2 = false :=
  load_failure_frame h0 ser hf

/-- C5 witness: the frame disjunction holds for the concrete failing message
`serC5`. -/
theorem claim_C5_witness :
    (load_from_serialized defaultHdr serC5).1 = false ∧
    (((load_from_serialized defaultHdr serC5).2.row_parities = defaultHdr.row_parities ∧
      (load_from_serialized defaultHdr serC5).2.col_parities = defaultHdr.col_parities) ∨
      confirm_check_sum (load_from_serialized defaultHdr serC5).2 = false) :=
  ⟨by decide, claim_C5_failure_frame defaultHdr serC5 (by decide)⟩

/-- C6 counterexample: flipping bit 0 of byte 16 (the row-parity-sum field) of
a serialized 1x1 header makes `load_from_serialized` fail, but the target
header's `check_sum`, `rows` and `cols` fields are overwritten with the values
from the (intact) duplicated prefix, so the header is not left exactly as it
was. -/
theorem claim_C6_counterexample :
    (load_from_serialized defaultHdr
      (flipSerByte (serialize (mkParityHdr 1 1 (fun _ => 0))) 16 0)).1 = false ∧
    (load_from_serialized defaultHdr
      (flipSerByte (serialize (mkParityHdr 1 1 (fun _ => 0))) 16 0)).2 ≠ defaultHdr := by
  decide

/-- C6 (amended): for every well-formed header and single-bit flip of its
serialization, a flip in the duplicated-prefix region (bytes 0-15) makes
`load_from_serialized` fail leaving the target header untouched, and a flip in
the row-parity-sum field (bytes 16-19) makes it fail without replacing the
parity sequences, though `check_sum`, `rows`, `cols` are overwritten with the
prefix values. -/
theorem claim_C6_flip_detected (hdr h0 : ParityHdr) (d k : Nat) (hk : k < 8)
    (hcs : hdr.check_sum < 4294967296) (hB : hdr.B < 65536) (hN : hdr.N < 65536) :
    (d < 16 → load_from_serialized h0 (flipSerByte (serialize hdr) d k) = (false, h0)) ∧
    (16 ≤ d → d < 20 →
      load_from_serialized h0 (flipSerByte (serialize hdr) d k) =
        (false, { h0 with check_sum := hdr.check_sum, B := hdr.B, N := hdr.N })) := by
  constructor
  · intro hd
    exact load_flip_prefix hdr h0 k hd
  · intro hd1 hd2
    exact load_flip_sumfield hdr h0 hd1 hd2 hk hcs hB hN

/-- C6 witness: serialized 1x1 header of the all-zero buffer, flipping bit 5
of byte 3. -/
theorem claim_C6_witness :
    5 < 8 ∧ (mkParityHdr 1 1 (fun _ => 0)).check_sum < 4294967296 ∧
    (mkParityHdr 1 1 (fun _ => 0)).B < 65536 ∧ (mkParityHdr 1 1 (fun _ => 0)).N < 65536 ∧
    ((3 < 16 → load_from_serialized defaultHdr
        (flipSerByte (serialize (mkParityHdr 1 1 (fun _ => 0))) 3 5) = (false, defaultHdr)) ∧
      (16 ≤ 3 → 3 < 20 →
        load_from_serialized defaultHdr
          (flipSerByte (serialize (mkParityHdr 1 1 (fun _ => 0))) 3 5) =
          (false, { defaultHdr with check_sum := (mkParityHdr 1 1 (fun _ => 0)).check_sum, B := (mkParityHdr 1 1 (fun _ => 0)).B, N := (mkParityHdr 1 1 (fun _ => 0)).N }))) :=
  ⟨by decide, by decide, by decide, by decide,
    claim_C6_flip_detected (mkParityHdr 1 1 (fun _ => 0)) defaultHdr 3 5 (by decide)
      (by decide) (by decide) (by decide)⟩

/-- C7 counterexample: a header that fails its own checksum (such as one left
behind by a failed deserialization) is equal to itself per `operator==`, yet
`repair_byte_array` raises the bad-checksum failure instead of returning
success, because the checksum precondition is checked before the equality
test. -/
theorem claim_C7_counterexample :
    hdrEq ⟨5, 0, 0, [], []⟩ ⟨5, 0, 0, [], []⟩ = true ∧
    (repair_byte_array ⟨5, 0, 0, [], []⟩ ⟨5, 0, 0, [], []⟩ (fun _ => 0)).1 =
      Except.error msgBadCheckSum := by
  exact ⟨by decide, rfl⟩

/-- C7 (amended): `repair_byte_array` mutates the buffer only at the final
single-bit flip: when the trusted header passes `confirm_check_sum` and the
two headers are equal it returns success with the buffer unchanged, and every
failure is raised with the buffer left byte-for-byte unmodified. -/
theorem claim_C7_repair_frame (rcvd_hdr t_hdr : ParityHdr) (t : Nat → Nat) :
    (confirm_check_sum rcvd_hdr = true → hdrEq rcvd_hdr t_hdr = true →
      repair_byte_array rcvd_hdr t_hdr t = (Except.ok (), t)) ∧
    (∀ e, (repair_byte_array rcvd_hdr t_hdr t).1 = Except.error e →
      (repair_byte_array rcvd_hdr t_hdr t).2 = t) :=
  ⟨fun hc he => repair_ok_of_hdrEq rcvd_hdr t_hdr t hc he,
    fun e hf => repair_error_frame rcvd_hdr t_hdr t e hf⟩

/-- C7 witness: matching default headers (which pass the checksum) are a
successful no-op. -/
theorem claim_C7_witness :
    confirm_check_sum defaultHdr = true ∧ hdrEq defaultHdr defaultHdr = true ∧
    repair_byte_array defaultHdr defaultHdr (fun _ => 0) =
      (Except.ok (), fun _ => (0 : Nat)) :=
  ⟨by decide, by decide,
    (claim_C7_repair_frame defaultHdr defaultHdr (fun _ => 0)).1 (by decide) (by decide)⟩

/-- C8: every failure of `repair_byte_array` carries one of seven reasons —
the two caller-misuse conditions (bad trusted checksum, dimension mismatch)
and the five uncorrectable-corruption sub-cases (no column, multiple columns,
no row, multiple rows, multiple bad bits in one byte) — and the seven
human-readable reasons are pairwise distinct. -/
theorem claim_C8_error_taxonomy :
    (∀ (rcvd_hdr t_hdr : ParityHdr) (t : Nat → Nat) (e : String),
      (repair_byte_array rcvd_hdr t_hdr t).1 = Except.error e →
      e = msgBadCheckSum ∨ e = msgDimMismatch ∨ e = msgNoCol ∨ e = msgManyCol ∨
        e = msgNoRow ∨ e = msgManyRow ∨ e = msgManyBit) ∧
    List.Pairwise (fun x y => x ≠ y) [msgBadCheckSum, msgDimMismatch, msgNoCol,
      msgManyCol, msgNoRow, msgManyRow, msgManyBit] := by
  constructor
  · exact fun rcvd_hdr t_hdr t e hf => repair_error_msgs rcvd_hdr t_hdr t e hf
  · decide

/-- C8 witness: the bad-checksum failure is one of the seven reasons. -/
theorem claim_C8_witness :
    (repair_byte_array ⟨1, 0, 0, [], []⟩ ⟨1, 0, 0, [], []⟩ (fun _ => 0)).1 =
      Except.error msgBadCheckSum ∧
    (msgBadCheckSum = msgBadCheckSum ∨ msgBadCheckSum = msgDimMismatch ∨
      msgBadCheckSum = msgNoCol ∨ msgBadCheckSum = msgManyCol ∨
      msgBadCheckSum = msgNoRow ∨ msgBadCheckSum = msgManyRow ∨
      msgBadCheckSum = msgManyBit) :=
  ⟨rfl, claim_C8_error_taxonomy.1 ⟨1, 0, 0, [], []⟩ ⟨1, 0, 0, [], []⟩ (fun _ => 0)
    msgBadCheckSum rfl⟩

/-- C9 counterexample: `load_from_serialized` succeeds on `serC9` while
storing the column-parity byte 3, which is neither 0 nor 1 — so the 0/1
invariant is not maintained by loading from a serialized byte sequence. -/
theorem claim_C9_counterexample :
    (load_from_serialized defaultHdr serC9).1 = true ∧
    (load_from_serialized defaultHdr serC9).2.col_parities.getD 0 0 = 3 ∧
    ¬((load_from_serialized defaultHdr serC9).2.col_parities.getD 0 0 = 0 ∨
      (load_from_serialized defaultHdr serC9).2.col_parities.getD 0 0 = 1) := by
  decide

/-- C9 (amended): every element of the `col_parities` sequence of a header
constructed from a buffer is 0 or 1; `load_from_serialized` copies payload
bytes verbatim and does not enforce this invariant. -/
theorem claim_C9_col_parity_invariant (B N : Nat) (a : Nat → Nat) (x : Nat)
    (hx : x ∈ (mkParityHdr B N a).col_parities) : x = 0 ∨ x = 1 := by
  rw [mkParityHdr_col] at hx
  rcases List.mem_map.mp hx with ⟨c, _, rfl⟩
  have hle : (calculate_parities B N a).2 c ≤ 1 := by
    rw [calculate_parities, parityFold_snd]
    exact xorSum_le_one fun i _ => byte_parity_le_one _
  omega

/-- C9 witness: the single column parity of the 1x1 buffer `[1]` is 1. -/
theorem claim_C9_witness :
    (1 ∈ (mkParityHdr 1 1 (fun _ => 1)).col_parities) ∧ ((1 : Nat) = 0 ∨ (1 : Nat) = 1) :=
  ⟨by decide, claim_C9_col_parity_invariant 1 1 (fun _ => 1) 1 (by decide)⟩

/-- C10: a default-constructed (empty placeholder) header has checksum 0,
rows 0 and cols 0 and passes `confirm_check_sum`, so a successful checksum
confirmation alone does not guarantee the header was ever populated. -/
theorem claim_C10_default_header :
    defaultHdr.check_sum = 0 ∧ defaultHdr.B = 0 ∧ defaultHdr.N = 0 ∧
    confirm_check_sum defaultHdr = true := by
  decide

end ParityChecking
